import Mathlib

/-!
Verification of the navigation subsystem of `game_navigation.py`
(`GamePathFinder`): nav-mesh construction, A* pathfinding, octile
heuristic, Bresenham line of sight, path smoothing, the path cache and
the partial nav-mesh repair.  Python code is shallowly embedded: grid
coordinates are unbounded integers, the blocking map (`world_map`) and
the walkable set are lists of cells, dictionaries are association
lists, and code that raises a Python exception returns `Except.error`.
-/

namespace GameNav

/-- A grid cell, an integer `(x, y)` pair. -/
abbrev Cell := Int × Int

/-- The eight neighbor directions in the order used by `_build_nav_mesh`:
`[(-1,0), (0,-1), (1,0), (0,1), (-1,-1), (1,-1), (1,1), (-1,1)]`. -/
def directions : List Cell :=
  [(-1, 0), (0, -1), (1, 0), (0, 1), (-1, -1), (1, -1), (1, 1), (-1, 1)]

/-- The four orthogonal directions used by `_partial_navmesh_update`:
`[(-1,0), (0,-1), (1,0), (0,1)]`. -/
def orthogonalDirections : List Cell :=
  [(-1, 0), (0, -1), (1, 0), (0, 1)]

/-- `_precompute_walkable`: the cells `(x, y)` whose entry `map_data[y][x]`
in the occupancy grid is `false` (not blocking).  `np.where` scans the
array row-major, giving row (`y`) and column (`x`) indices. -/
def precomputeWalkable (grid : List (List Bool)) : List Cell :=
  grid.enum.flatMap fun yrow =>
    yrow.2.enum.filterMap fun xb =>
      if xb.2 then none else some ((xb.1 : Int), (yrow.1 : Int))

/-- Python dictionary lookup `d.get(k)`, on a dictionary embedded as an
association list. -/
def assocGet {α β : Type} [DecidableEq α] (k : α) :
    List (α × β) → Option β
  | [] => none
  | p :: rest => if p.1 = k then some p.2 else assocGet k rest

/-- The nav mesh: a dictionary from cells to their neighbor lists,
embedded as an association list (`_build_nav_mesh` inserts each key at
most once). -/
abbrev Mesh := List (Cell × List Cell)

/-- `_build_nav_mesh`: for each walkable cell, the neighbors among the
eight `directions` that are walkable, in direction order; cells with no
neighbors get no entry. -/
def buildNavMesh (walkable : List Cell) : Mesh :=
  walkable.filterMap fun c =>
    let neighbors := directions.filterMap fun d =>
      let n : Cell := (c.1 + d.1, c.2 + d.2)
      if n ∈ walkable then some n else none
    if neighbors.isEmpty then none else some (c, neighbors)

/-- Python `start in self.nav_mesh`: dictionary key membership. -/
def meshContains (mesh : Mesh) (c : Cell) : Bool :=
  (assocGet c mesh).isSome

/-- Python tuple unpacking `_, current = v` applied to an `int` value
`v`: always raises `TypeError` (an `int` is not iterable).  The frontier
entries of `_optimized_a_star` are triples
`(priority, tie-break, cell)`, so `heapq.heappop(frontier)[1]` is the
integer tie-break (`0` for the initial entry, `id(neighbor)` for pushed
ones), never a pair. -/
def unpackIntAsPair (_v : Int) : Except String (Int × Cell) :=
  Except.error "TypeError: cannot unpack non-iterable int object"

/-- `_optimized_a_star`.  If `start == goal` or `start` is not a mesh
key it returns the empty path.  Otherwise the frontier is initialised
with `(0, 0, start)` and the loop body's first statement,
`_, current = heapq.heappop(frontier)[1]`, unpacks the popped entry's
integer component and raises `TypeError`; nothing after that statement
is reachable, so the search propagates the error. -/
def optimizedAStar (mesh : Mesh) (start goal : Cell) :
    Except String (List Cell) :=
  if start = goal ∨ ¬ meshContains mesh start then Except.ok []
  else
    -- frontier after `heapq.heappush(frontier, (0, 0, start))`
    let frontier : List (Int × Int × Cell) := [(0, 0, start)]
    match frontier with
    | [] => Except.ok []            -- `while frontier` never entered
    | entry :: _ => do
        -- `_, current = heapq.heappop(frontier)[1]`
        let _ ← unpackIntAsPair entry.2.1
        Except.ok []                -- unreachable past the TypeError

/-- `_octile_heuristic`: `(dx + dy) - 0.5858 * min(dx, dy)` with
`dx, dy` the absolute coordinate differences; floats embedded as
rationals. -/
def octileHeuristic (a b : Cell) : ℚ :=
  let dx : ℚ := |(a.1 : ℚ) - (b.1 : ℚ)|
  let dy : ℚ := |(a.2 : ℚ) - (b.2 : ℚ)|
  (dx + dy) - 0.5858 * min dx dy

/-- One pass of the `while (x0 != x1) or (y0 != y1)` loop of
`_has_line_of_sight`.  `walls` is `self.world_map` (the blocking map,
keyed by cell).  The fuel argument counts loop iterations; each
iteration advances `x0` or `y0` one step (the guards `e2 >= dy` with
`dy ≤ 0` and `e2 <= dx` with `dx ≥ 0` cannot both fail), so
`dx - dy + 1` iterations always suffice; on exhausted fuel we return
`true`, a branch no reachable input hits. -/
def losLoop (walls : List Cell) (x1 y1 dx dy sx sy : Int) :
    Nat → Int → Int → Int → Bool
  | 0, _, _, _ => true
  | fuel + 1, x0, y0, err =>
    if x0 = x1 ∧ y0 = y1 then true
    else if (x0, y0) ∈ walls then false
    else
      let e2 := 2 * err
      if e2 ≥ dy then
        -- `err += dy; x0 += sx; if x0 == x1 and y0 == y1: break`
        if x0 + sx = x1 ∧ y0 = y1 then true
        else if e2 ≤ dx then
          losLoop walls x1 y1 dx dy sx sy fuel (x0 + sx) (y0 + sy)
            (err + dy + dx)
        else
          losLoop walls x1 y1 dx dy sx sy fuel (x0 + sx) y0 (err + dy)
      else
        if e2 ≤ dx then
          losLoop walls x1 y1 dx dy sx sy fuel x0 (y0 + sy) (err + dx)
        else
          losLoop walls x1 y1 dx dy sx sy fuel x0 y0 err

/-- `_has_line_of_sight(start, end)`: Bresenham stepping from `start`
toward `end`, returning `false` on the first stepped cell found in the
blocking map; the final cell `end` itself is never tested. -/
def hasLineOfSight (walls : List Cell) (s e : Cell) : Bool :=
  let dx := |e.1 - s.1|
  let dy := -|e.2 - s.2|
  let sx : Int := if s.1 < e.1 then 1 else -1
  let sy : Int := if s.2 < e.2 then 1 else -1
  losLoop walls e.1 e.2 dx dy sx sy (dx - dy + 1).toNat s.1 s.2 (dx + dy)

/-- The `for i in range(1, len(path) - 1)` loop of `_smooth_path`,
recursing over `path[i], path[i+1], ..., path[-1]`: when
`_has_line_of_sight(last_valid, path[i+1])` fails, `path[i]` is kept
and becomes the new `last_valid`; the final cell is always appended. -/
def smoothLoop (walls : List Cell) : Cell → List Cell → List Cell
  | _, [] => []
  | _, [last] => [last]
  | lastValid, cur :: next :: rest =>
    if ¬ hasLineOfSight walls lastValid next then
      cur :: smoothLoop walls cur (next :: rest)
    else
      smoothLoop walls lastValid (next :: rest)

/-- `_smooth_path`: paths of fewer than 3 cells are returned unchanged;
otherwise the first cell is kept and the loop drops every intermediate
cell that the line of sight from the last kept cell can skip. -/
def smoothPath (walls : List Cell) (path : List Cell) : List Cell :=
  if path.length < 3 then path
  else
    match path with
    | [] => []
    | p0 :: rest => p0 :: smoothLoop walls p0 rest

/-- The path cache `self.path_cache`: a dictionary keyed by
`(start, goal)`, embedded as an association list. -/
abbrev Cache := List ((Cell × Cell) × List Cell)

/-- Python dictionary assignment `d[k] = v`: replace the value when the
key is present, append the pair otherwise. -/
def dictInsert (m : List ((Cell × Cell) × List Cell)) (k : Cell × Cell)
    (v : List Cell) : List ((Cell × Cell) × List Cell) :=
  if (assocGet k m).isSome then
    m.map fun p => if p.1 = k then (k, v) else p
  else m ++ [(k, v)]

/-- `find_path_async`: on a cache hit return the stored path without
running the search (the `Bool` component records whether
`_optimized_a_star` was invoked); on a miss run the search and store
the result only `if path and path[-1] == goal`. -/
def findPathAsync (cache : Cache) (mesh : Mesh) (start goal : Cell) :
    Except String (List Cell) × Bool × Cache :=
  match assocGet (start, goal) cache with
  | some p => (Except.ok p, false, cache)
  | none =>
    match optimizedAStar mesh start goal with
    | Except.error e => (Except.error e, true, cache)
    | Except.ok path =>
      if ¬ path.isEmpty ∧ path.getLast? = some goal then
        (Except.ok path, true, dictInsert cache (start, goal) path)
      else (Except.ok path, true, cache)

/-- `get_next_step`: returns the agent's next cell and the cache after
the call.  `start == goal` returns `start` at once; otherwise the cached
path is used when present and non-empty, else `_optimized_a_star` runs
inline (propagating its exception) and a non-empty result is cached;
an empty path falls back to `start`. -/
def getNextStep (cache : Cache) (mesh : Mesh) (start goal : Cell) :
    Except String (Cell × Cache) :=
  if start = goal then Except.ok (start, cache)
  else
    match (assocGet (start, goal) cache).getD [] with
    | c :: _ => Except.ok (c, cache)
    | [] =>
      match optimizedAStar mesh start goal with
      | Except.error e => Except.error e
      | Except.ok [] => Except.ok (start, cache)
      | Except.ok (c :: rest) =>
        Except.ok (c, dictInsert cache (start, goal) (c :: rest))

/-- `_detect_changes`: the cells where the stored occupancy snapshot and
the current grid differ.  `np.where(diff)` yields row-major index pairs,
so the returned cells are in `(row, column)` = `(y, x)` order — the
transpose of the `(x, y)` order used for mesh keys. -/
def detectChanges (oldGrid newGrid : List (List Bool)) : List Cell :=
  (oldGrid.zip newGrid).enum.flatMap fun yrows =>
    (yrows.2.1.zip yrows.2.2).enum.filterMap fun xb =>
      if xb.2.1 ≠ xb.2.2 then some ((yrows.1 : Int), (xb.1 : Int))
      else none

/-- The replacement adjacency list `_partial_navmesh_update` computes
for a changed node: its orthogonal neighbors found in the (stale,
precomputed) walkable set. -/
def orthNeighbors (walkable : List Cell) (node : Cell) : List Cell :=
  orthogonalDirections.filterMap fun d =>
    let n : Cell := (node.1 + d.1, node.2 + d.2)
    if n ∈ walkable then some n else none

/-- The body of `_partial_navmesh_update` for one changed node: when the
node is a mesh key, its adjacency list is replaced by its orthogonal
neighbors found in the (stale, precomputed) walkable set. -/
def repairNode (walkable : List Cell) (mesh : Mesh) (node : Cell) :
    Mesh :=
  if (assocGet node mesh).isSome then
    mesh.map fun p =>
      if p.1 = node then (node, orthNeighbors walkable node) else p
  else mesh

/-- `_partial_navmesh_update`: repair every changed node in turn. -/
def partialNavmeshUpdate (walkable : List Cell) (mesh : Mesh)
    (changed : List Cell) : Mesh :=
  changed.foldl (repairNode walkable) mesh

/-- The mutable state of a `GamePathFinder` that the dynamic-update path
touches: the occupancy snapshot `map_data`, the precomputed walkable
set, the nav mesh and the path cache. -/
structure PathFinderState where
  mapData : List (List Bool)
  walkable : List Cell
  navMesh : Mesh
  pathCache : Cache

/-- `dynamic_obstacle_update(force)`: when `force` or the handler
reports dynamic obstacles, run `_partial_navmesh_update` (which also
refreshes the snapshot via `_detect_changes`) and then clear the path
cache; otherwise do nothing. -/
def dynamicObstacleUpdate (st : PathFinderState)
    (currentMap : List (List Bool)) (force hasDynamicObstacles : Bool) :
    PathFinderState :=
  if force || hasDynamicObstacles then
    let changed := detectChanges st.mapData currentMap
    { st with
      mapData := currentMap
      navMesh := partialNavmeshUpdate st.walkable st.navMesh changed
      pathCache := [] }
  else st

/-- One A*-step of adjacency: `b` is reachable from `a` by one of the
eight mesh `directions` (the edges `_build_nav_mesh` creates). -/
def adjStep (a b : Cell) : Prop := (b.1 - a.1, b.2 - a.2) ∈ directions

instance adjStepDecidable (a b : Cell) : Decidable (adjStep a b) :=
  inferInstanceAs (Decidable ((b.1 - a.1, b.2 - a.2) ∈ directions))

/-- A fully open 2×2 occupancy grid. -/
def openGrid2 : List (List Bool) := [[false, false], [false, false]]

/-- A fully open 3×3 occupancy grid. -/
def openGrid3 : List (List Bool) :=
  [[false, false, false], [false, false, false], [false, false, false]]

/-- The 3×3 grid with only the center cell `(1, 1)` blocking. -/
def centerBlockedGrid3 : List (List Bool) :=
  [[false, false, false], [false, true, false], [false, false, false]]

/-- A fully open 5×5 occupancy grid (spec Scenario A). -/
def openGrid5 : List (List Bool) :=
  List.replicate 5 (List.replicate 5 false)


section Lemmas

/-- A single adjacent (orthogonal or diagonal) step whose start cell is
not blocking always passes the Bresenham line-of-sight test: the only
cell the loop inspects before reaching the end is the start itself. -/
lemma los_of_adjStep (walls : List Cell) (a b : Cell)
    (hw : a ∉ walls) (h : adjStep a b) : hasLineOfSight walls a b = true := by
  obtain ⟨ax, ay⟩ := a
  obtain ⟨bx, bz⟩ := b
  simp only [adjStep, directions, List.mem_cons, List.not_mem_nil, or_false,
    Prod.mk.injEq] at h
  rcases h with ⟨h1, h2⟩ | ⟨h1, h2⟩ | ⟨h1, h2⟩ | ⟨h1, h2⟩ |
    ⟨h1, h2⟩ | ⟨h1, h2⟩ | ⟨h1, h2⟩ | ⟨h1, h2⟩
  · -- (-1, 0)
    rw [show bx = ax - 1 from by omega, show bz = ay from by omega]
    simp only [hasLineOfSight]
    norm_num
    rw [if_neg (by omega : ¬ ax < ax - 1)]
    show losLoop walls (ax - 1) ay 1 0 (-1) (-1) 2 ax ay 1 = true
    simp only [losLoop, hw]
    ring_nf; simp
  · -- (0, -1)
    rw [show bx = ax from by omega, show bz = ay - 1 from by omega]
    simp only [hasLineOfSight]
    norm_num
    rw [if_neg (by omega : ¬ ay < ay - 1)]
    show losLoop walls ax (ay - 1) 0 (-1) (-1) (-1) 2 ax ay (-1) = true
    simp only [losLoop, hw]
    ring_nf; simp
  · -- (1, 0)
    rw [show bx = ax + 1 from by omega, show bz = ay from by omega]
    simp only [hasLineOfSight]
    norm_num
    show losLoop walls (ax + 1) ay 1 0 1 (-1) 2 ax ay 1 = true
    simp only [losLoop, hw]
    norm_num
  · -- (0, 1)
    rw [show bx = ax from by omega, show bz = ay + 1 from by omega]
    simp only [hasLineOfSight]
    norm_num
    show losLoop walls ax (ay + 1) 0 (-1) (-1) 1 2 ax ay (-1) = true
    simp only [losLoop, hw]
    norm_num
  · -- (-1, -1)
    rw [show bx = ax - 1 from by omega, show bz = ay - 1 from by omega]
    simp only [hasLineOfSight]
    norm_num
    rw [if_neg (by omega : ¬ ax < ax - 1), if_neg (by omega : ¬ ay < ay - 1)]
    show losLoop walls (ax - 1) (ay - 1) 1 (-1) (-1) (-1) 3 ax ay 0 = true
    simp only [losLoop, hw]
    ring_nf; simp
  · -- (1, -1)
    rw [show bx = ax + 1 from by omega, show bz = ay - 1 from by omega]
    simp only [hasLineOfSight]
    norm_num
    rw [if_neg (by omega : ¬ ay < ay - 1)]
    show losLoop walls (ax + 1) (ay - 1) 1 (-1) 1 (-1) 3 ax ay 0 = true
    simp only [losLoop, hw]
    ring_nf; simp
  · -- (1, 1)
    rw [show bx = ax + 1 from by omega, show bz = ay + 1 from by omega]
    simp only [hasLineOfSight]
    norm_num
    show losLoop walls (ax + 1) (ay + 1) 1 (-1) 1 1 3 ax ay 0 = true
    simp only [losLoop, hw]
    norm_num
  · -- (-1, 1)
    rw [show bx = ax - 1 from by omega, show bz = ay + 1 from by omega]
    simp only [hasLineOfSight]
    norm_num
    rw [if_neg (by omega : ¬ ax < ax - 1)]
    show losLoop walls (ax - 1) (ay + 1) 1 (-1) (-1) 1 3 ax ay 0 = true
    simp only [losLoop, hw]
    ring_nf; simp

lemma smoothLoop_spec (walls : List Cell) :
    ∀ (rest : List Cell) (cur lv : Cell),
      lv ∉ walls → cur ∉ walls → (∀ c ∈ rest, c ∉ walls) →
      List.Chain' adjStep (cur :: rest) →
      (adjStep lv cur ∨ hasLineOfSight walls lv cur = true) →
      (smoothLoop walls lv (cur :: rest)).length ≤ (cur :: rest).length ∧
      List.Chain' (fun a b => hasLineOfSight walls a b = true)
        (lv :: smoothLoop walls lv (cur :: rest)) ∧
      (smoothLoop walls lv (cur :: rest)).getLast? =
        (cur :: rest).getLast? ∧
      smoothLoop walls lv (cur :: rest) ≠ [] := by
  intro rest
  induction rest with
  | nil =>
    intro cur lv hlv hcur _ _ hgood
    have hlos : hasLineOfSight walls lv cur = true := by
      rcases hgood with hadj | hl
      · exact los_of_adjStep walls lv cur hlv hadj
      · exact hl
    refine ⟨by simp [smoothLoop], ?_, by simp [smoothLoop], by simp [smoothLoop]⟩
    simp [smoothLoop, List.chain'_cons, hlos]
  | cons next rest ih =>
    intro cur lv hlv hcur hrest hchain hgood
    have hnext : next ∉ walls := hrest next (by simp)
    have hrest' : ∀ c ∈ rest, c ∉ walls := fun c hc => hrest c (by simp [hc])
    have hchain' : List.Chain' adjStep (next :: rest) :=
      (List.chain'_cons.mp hchain).2
    have hadj_cn : adjStep cur next := (List.chain'_cons.mp hchain).1
    by_cases hl : hasLineOfSight walls lv next = true
    · -- line of sight holds: drop `cur`
      have hres : smoothLoop walls lv (cur :: next :: rest) =
          smoothLoop walls lv (next :: rest) := by
        simp [smoothLoop, hl]
      obtain ⟨ihlen, ihchain, ihlast, ihne⟩ :=
        ih next lv hlv hnext hrest' hchain' (Or.inr hl)
      refine ⟨?_, ?_, ?_, ?_⟩
      · rw [hres]; exact le_trans ihlen (by simp)
      · rw [hres]; exact ihchain
      · rw [hres, ihlast, List.getLast?_cons_cons]
      · rw [hres]; exact ihne
    · -- no line of sight: keep `cur`, it becomes the new last_valid
      have hres : smoothLoop walls lv (cur :: next :: rest) =
          cur :: smoothLoop walls cur (next :: rest) := by
        simp [smoothLoop, hl]
      obtain ⟨ihlen, ihchain, ihlast, ihne⟩ :=
        ih next cur hcur hnext hrest' hchain' (Or.inl hadj_cn)
      have hlos : hasLineOfSight walls lv cur = true := by
        rcases hgood with hadj | hcl
        · exact los_of_adjStep walls lv cur hlv hadj
        · exact hcl
      refine ⟨?_, ?_, ?_, ?_⟩
      · rw [hres]; simpa using Nat.succ_le_succ ihlen
      · rw [hres]
        exact List.chain'_cons.mpr ⟨hlos, ihchain⟩
      · obtain ⟨a, l, hS⟩ : ∃ a l, smoothLoop walls cur (next :: rest) = a :: l := by
          cases hS : smoothLoop walls cur (next :: rest) with
          | nil => exact absurd hS ihne
          | cons a l => exact ⟨a, l, rfl⟩
        rw [hres, hS, List.getLast?_cons_cons, List.getLast?_cons_cons, ← hS,
          ihlast]
      · rw [hres]; simp

lemma assocGet_mapReplace (m : Mesh) (node : Cell) (v : List Cell) (k : Cell) :
    assocGet k (m.map fun p => if p.1 = node then (node, v) else p) =
      if k = node then (if (assocGet node m).isSome then some v else none)
      else assocGet k m := by
  induction m with
  | nil => simp [assocGet]
  | cons p m ih =>
    by_cases hp : p.1 = node <;> by_cases hk : k = node
    · subst hk
      simp [assocGet, hp, ih]
    · simp [assocGet, hp, ih, hk, Ne.symm hk]
    · subst hk
      simp [assocGet, hp, ih]
    · by_cases hpk : p.1 = k
      · simp [assocGet, hp, hpk, ih, hk]
      · simp [assocGet, hp, hpk, ih, hk]

lemma assocGet_repairNode (w : List Cell) (m : Mesh) (node k : Cell) :
    assocGet k (repairNode w m node) =
      if k = node ∧ (assocGet node m).isSome then some (orthNeighbors w node)
      else assocGet k m := by
  unfold repairNode
  by_cases hs : (assocGet node m).isSome
  · rw [if_pos hs, assocGet_mapReplace]
    by_cases hk : k = node
    · simp [hk, hs]
    · simp [hk]
  · rw [if_neg hs]
    simp [hs]

end Lemmas


section Claims

/-- C1: the claim says `_optimized_a_star` terminates normally and
returns a list for every well-formed input.  In fact, whenever the
guard falls through — `start ≠ goal` and `start` is a mesh key — the
first loop iteration raises `TypeError` at
`_, current = heapq.heappop(frontier)[1]`, because the popped entry's
component 1 is the integer tie-break, which cannot be unpacked into a
pair. -/
theorem optimizedAStar_always_raises (mesh : Mesh) (start goal : Cell)
    (h1 : start ≠ goal) (h2 : meshContains mesh start = true) :
    optimizedAStar mesh start goal =
      Except.error "TypeError: cannot unpack non-iterable int object" := by
  unfold optimizedAStar
  rw [if_neg]
  · rfl
  · rintro (h | h)
    · exact h1 h
    · rw [h2] at h
      exact h rfl

/-- C1 witness: on the open 2×2 grid with `start = (0,0)` (a mesh key)
and `goal = (1,1)` the search raises instead of returning a path. -/
theorem optimizedAStar_always_raises_witness :
    ((0, 0) : Cell) ≠ (1, 1) ∧
    meshContains (buildNavMesh (precomputeWalkable openGrid2)) (0, 0) = true ∧
    optimizedAStar (buildNavMesh (precomputeWalkable openGrid2)) (0, 0) (1, 1) =
      Except.error "TypeError: cannot unpack non-iterable int object" :=
  ⟨by decide, by decide,
    optimizedAStar_always_raises _ _ _ (by decide) (by decide)⟩

/-- C2: on the open 3×3 grid the pair `(0,0) → (2,2)` is reachable
(witnessed by the adjacent-step chain `(0,0), (1,1), (2,2)` through
walkable cells), yet the search raises `TypeError` instead of
returning any path, so its cost can never equal the reference
shortest-path cost. -/
theorem optimizedAStar_crashes_on_reachable_pair :
    (List.Chain' adjStep [((0, 0) : Cell), (1, 1), (2, 2)] ∧
      ((0, 0) : Cell) ∈ precomputeWalkable openGrid3 ∧
      ((1, 1) : Cell) ∈ precomputeWalkable openGrid3 ∧
      ((2, 2) : Cell) ∈ precomputeWalkable openGrid3) ∧
    optimizedAStar (buildNavMesh (precomputeWalkable openGrid3)) (0, 0) (2, 2) =
      Except.error "TypeError: cannot unpack non-iterable int object" := by
  exact ⟨⟨by simp only [List.chain'_cons, List.chain'_singleton, and_true]; decide, by decide⟩, rfl⟩

/-- C3 (Scenario A): on the open 5×5 grid with start `(0,0)` and goal
`(4,4)` the search raises `TypeError` instead of returning the
4-diagonal-step path; smoothing the diagonal path the claim expects
does produce `[(0,0), (4,4)]`. -/
theorem scenarioA_search_crashes_smooth_ok :
    optimizedAStar (buildNavMesh (precomputeWalkable openGrid5)) (0, 0) (4, 4) =
      Except.error "TypeError: cannot unpack non-iterable int object" ∧
    smoothPath [] [(0, 0), (1, 1), (2, 2), (3, 3), (4, 4)] =
      [(0, 0), (4, 4)] := by
  exact ⟨rfl, rfl⟩

/-- C4 counterexample: block the center of the open 3×3 grid.  The
changed cell `(1,1)` is a mesh key, so the repair gives it the four
orthogonal neighbors from the stale walkable set, while a full build
on the updated grid has no entry for the now-blocking cell at all; and
the neighbor `(0,0)` keeps its stale adjacency (still listing `(1,1)`),
unlike the full build. -/
theorem partialNavmeshUpdate_differs_from_full_build :
    assocGet ((1, 1) : Cell)
        (partialNavmeshUpdate (precomputeWalkable openGrid3)
          (buildNavMesh (precomputeWalkable openGrid3))
          (detectChanges openGrid3 centerBlockedGrid3)) ≠
      assocGet ((1, 1) : Cell)
        (buildNavMesh (precomputeWalkable centerBlockedGrid3)) ∧
    assocGet ((0, 0) : Cell)
        (partialNavmeshUpdate (precomputeWalkable openGrid3)
          (buildNavMesh (precomputeWalkable openGrid3))
          (detectChanges openGrid3 centerBlockedGrid3)) ≠
      assocGet ((0, 0) : Cell)
        (buildNavMesh (precomputeWalkable centerBlockedGrid3)) := by
  exact ⟨by decide, by decide⟩

/-- C4 amended: after `_partial_navmesh_update`, a cell's adjacency
list is `orthNeighbors` — its orthogonal neighbors from the stale
precomputed walkable set — exactly when the cell is among the changed
nodes and is a mesh key; every other cell's adjacency, including the
changed cells' neighbors, is untouched. -/
theorem partialNavmeshUpdate_lookup (w : List Cell) (changed : List Cell) :
    ∀ (m : Mesh) (k : Cell),
      assocGet k (partialNavmeshUpdate w m changed) =
        if k ∈ changed ∧ (assocGet k m).isSome then some (orthNeighbors w k)
        else assocGet k m := by
  induction changed with
  | nil => intro m k; simp [partialNavmeshUpdate]
  | cons c rest ih =>
    intro m k
    have hstep : partialNavmeshUpdate w m (c :: rest) =
        partialNavmeshUpdate w (repairNode w m c) rest := rfl
    rw [hstep, ih, assocGet_repairNode]
    by_cases hk : k = c
    · subst hk
      by_cases hs : (assocGet k m).isSome
      · by_cases hr : k ∈ rest <;> simp [hs, hr]
      · by_cases hr : k ∈ rest <;> simp [hs, hr]
    · by_cases hs : (assocGet k m).isSome
      · by_cases hr : k ∈ rest <;> simp [hs, hr, hk]
      · by_cases hr : k ∈ rest <;> simp [hs, hr, hk]

/-- C5: the line-of-sight test is not symmetric.  With a single wall at
`(1,1)`, the Bresenham walk from `(0,0)` to `(2,1)` steps on `(1,1)`
and reports blocked, while the walk from `(2,1)` to `(0,0)` steps on
`(1,0)` instead and reports clear. -/
theorem hasLineOfSight_asymmetric :
    hasLineOfSight [(1, 1)] (0, 0) (2, 1) = false ∧
    hasLineOfSight [(1, 1)] (2, 1) (0, 0) = true := by
  exact ⟨rfl, rfl⟩

/-- C6 counterexample: the claim quantifies over arbitrary non-blocking
cell lists.  For the two-cell input `[(0,0), (2,0)]` (cells not in the
wall map `[(1,0)]`, but two columns apart) `_smooth_path` returns the
input unchanged, and the consecutive output pair fails the
line-of-sight test because the line crosses the wall `(1,0)`. -/
theorem smoothPath_los_claim_fails :
    (((0, 0) : Cell) ∉ [((1, 0) : Cell)] ∧
      ((2, 0) : Cell) ∉ [((1, 0) : Cell)]) ∧
    smoothPath [((1, 0) : Cell)] [(0, 0), (2, 0)] = [(0, 0), (2, 0)] ∧
    ¬ List.Chain' (fun a b => hasLineOfSight [((1, 0) : Cell)] a b = true)
        (smoothPath [((1, 0) : Cell)] [(0, 0), (2, 0)]) := by
  refine ⟨⟨by decide, by decide⟩, rfl, ?_⟩
  rw [show smoothPath [((1, 0) : Cell)] [(0, 0), (2, 0)] =
      [(0, 0), (2, 0)] from rfl, List.chain'_pair]
  decide

/-- C6 amended: for a non-empty path of non-blocking cells whose
consecutive cells are single mesh steps apart (as every A*-produced
path is), smoothing never lengthens the path, keeps the first and last
cells, and every consecutive output pair passes the line-of-sight
test. -/
theorem smoothPath_spec (walls : List Cell) (path : List Cell)
    (hne : path ≠ [])
    (hclear : ∀ c ∈ path, c ∉ walls)
    (hadj : List.Chain' adjStep path) :
    (smoothPath walls path).length ≤ path.length ∧
    (smoothPath walls path).head? = path.head? ∧
    (smoothPath walls path).getLast? = path.getLast? ∧
    List.Chain' (fun a b => hasLineOfSight walls a b = true)
      (smoothPath walls path) := by
  match path with
  | [] => exact absurd rfl hne
  | [a] =>
    refine ⟨by simp [smoothPath], by simp [smoothPath],
      by simp [smoothPath], by simp [smoothPath]⟩
  | [a, b] =>
    have hab : adjStep a b := by
      simpa using hadj
    have ha : a ∉ walls := hclear a (by simp)
    have hlos := los_of_adjStep walls a b ha hab
    have hsp : smoothPath walls [a, b] = [a, b] := by simp [smoothPath]
    refine ⟨by rw [hsp], by rw [hsp], by rw [hsp], ?_⟩
    rw [hsp]
    exact List.chain'_cons.mpr ⟨hlos, List.chain'_singleton b⟩
  | a :: b :: c :: t =>
    have hsp : smoothPath walls (a :: b :: c :: t) =
        a :: smoothLoop walls a (b :: c :: t) := by
      have hlen : ¬ (a :: b :: c :: t).length < 3 := by simp
      simp [smoothPath, hlen]
    have ha : a ∉ walls := hclear a (by simp)
    have hb : b ∉ walls := hclear b (by simp)
    have hrest : ∀ x ∈ c :: t, x ∉ walls := fun x hx =>
      hclear x (by simp at hx ⊢; tauto)
    have hchain : List.Chain' adjStep (b :: c :: t) :=
      (List.chain'_cons.mp hadj).2
    have hadj_ab : adjStep a b := (List.chain'_cons.mp hadj).1
    obtain ⟨hlen, hchainlos, hlast, hne2⟩ :=
      smoothLoop_spec walls (c :: t) b a ha hb hrest hchain (Or.inl hadj_ab)
    obtain ⟨u, l, hS⟩ : ∃ u l,
        smoothLoop walls a (b :: c :: t) = u :: l := by
      cases hS : smoothLoop walls a (b :: c :: t) with
      | nil => exact absurd hS hne2
      | cons u l => exact ⟨u, l, rfl⟩
    refine ⟨?_, ?_, ?_, ?_⟩
    · rw [hsp]
      simpa using Nat.succ_le_succ hlen
    · rw [hsp]; simp
    · rw [hsp, hS, List.getLast?_cons_cons, ← hS, hlast]
      simp
    · rw [hsp]; exact hchainlos

/-- C6 witness: the diagonal 5-cell path of Scenario A on an empty wall
map satisfies the hypotheses, and smoothing it keeps the endpoints,
shortens it, and leaves a chain of mutually visible cells. -/
theorem smoothPath_spec_witness :
    ([((0, 0) : Cell), (1, 1), (2, 2), (3, 3), (4, 4)] ≠ [] ∧
      ((0, 0) : Cell) ∉ ([] : List Cell) ∧
      ((4, 4) : Cell) ∉ ([] : List Cell) ∧
      List.Chain' adjStep [((0, 0) : Cell), (1, 1), (2, 2), (3, 3), (4, 4)]) ∧
    ((smoothPath [] [((0, 0) : Cell), (1, 1), (2, 2), (3, 3), (4, 4)]).length ≤
        ([((0, 0) : Cell), (1, 1), (2, 2), (3, 3), (4, 4)]).length ∧
      (smoothPath [] [((0, 0) : Cell), (1, 1), (2, 2), (3, 3), (4, 4)]).head? =
        ([((0, 0) : Cell), (1, 1), (2, 2), (3, 3), (4, 4)]).head? ∧
      (smoothPath [] [((0, 0) : Cell), (1, 1), (2, 2), (3, 3), (4, 4)]).getLast? =
        ([((0, 0) : Cell), (1, 1), (2, 2), (3, 3), (4, 4)]).getLast? ∧
      List.Chain' (fun a b => hasLineOfSight [] a b = true)
        (smoothPath [] [((0, 0) : Cell), (1, 1), (2, 2), (3, 3), (4, 4)])) :=
  ⟨⟨by decide, by decide, by decide,
      by simp only [List.chain'_cons, List.chain'_singleton, and_true]; decide⟩,
    smoothPath_spec [] [(0, 0), (1, 1), (2, 2), (3, 3), (4, 4)]
      (by decide) (by decide)
      (by simp only [List.chain'_cons, List.chain'_singleton, and_true]; decide)⟩

/-- C7: `find_path_async` answers a cached key from the cache without
invoking the A* search, and whenever `dynamic_obstacle_update`
performs a repair (forced or with dynamic obstacles present) it
finishes with an empty path cache. -/
theorem findPathAsync_cache_contract :
    (∀ (cache : Cache) (mesh : Mesh) (start goal : Cell) (p : List Cell),
        assocGet (start, goal) cache = some p →
        findPathAsync cache mesh start goal = (Except.ok p, false, cache)) ∧
    (∀ (st : PathFinderState) (cm : List (List Bool)) (force hd : Bool),
        (force || hd) = true →
        (dynamicObstacleUpdate st cm force hd).pathCache = []) := by
  constructor
  · intro cache mesh start goal p hp
    simp [findPathAsync, hp]
  · intro st cm force hd h
    simp [dynamicObstacleUpdate, h]

/-- C7 witness: a one-entry cache answers its key without a search, and
a forced update on a small state leaves the cache empty. -/
theorem findPathAsync_cache_contract_witness :
    (assocGet (((0, 0), (1, 1)) : Cell × Cell)
        [(((0, 0), (1, 1)), [((1, 1) : Cell)])] = some [(1, 1)] ∧
      findPathAsync [(((0, 0), (1, 1)), [(1, 1)])] [] (0, 0) (1, 1) =
        (Except.ok [(1, 1)], false, [(((0, 0), (1, 1)), [(1, 1)])])) ∧
    ((true || false) = true ∧
      (dynamicObstacleUpdate
        ⟨openGrid2, [], [], [(((0, 0), (1, 1)), [(1, 1)])]⟩
        openGrid2 true false).pathCache = []) :=
  ⟨⟨by decide,
      findPathAsync_cache_contract.1 _ _ _ _ _ (by decide)⟩,
    ⟨by decide,
      findPathAsync_cache_contract.2 _ _ _ _ (by decide)⟩⟩

/-- C8 counterexample: with `dx = dy = 1` the code's heuristic value is
`2 - 0.5858 = 1.4142`, while the claimed octile value is
`max 1 1 + (√2 - 1) · min 1 1 = √2`, and `1.4142 ≠ √2`. -/
theorem octileHeuristic_not_exact_octile :
    ((octileHeuristic (0, 0) (1, 1) : ℚ) : ℝ) ≠
      max |(0 : ℝ) - 1| |(0 : ℝ) - 1| +
        (Real.sqrt 2 - 1) * min |(0 : ℝ) - 1| |(0 : ℝ) - 1| := by
  have hval : (octileHeuristic (0, 0) (1, 1) : ℚ) = 7071 / 5000 := by
    norm_num [octileHeuristic]
  have hrhs : max |(0 : ℝ) - 1| |(0 : ℝ) - 1| +
      (Real.sqrt 2 - 1) * min |(0 : ℝ) - 1| |(0 : ℝ) - 1| = Real.sqrt 2 := by
    norm_num
  rw [hval, hrhs]
  intro h
  have h2 : Real.sqrt 2 ^ 2 = 2 := Real.sq_sqrt (by norm_num)
  rw [← h] at h2
  norm_num at h2

/-- C8 amended: the heuristic equals
`max(dx, dy) + 0.4142 · min(dx, dy)` — the octile formula with the
constant `√2 - 1 ≈ 0.41421` rounded to the literal `0.4142` (the code
writes it as `(dx + dy) - 0.5858 · min(dx, dy)`). -/
theorem octileHeuristic_closed_form (a b : Cell) :
    octileHeuristic a b =
      max |(a.1 : ℚ) - (b.1 : ℚ)| |(a.2 : ℚ) - (b.2 : ℚ)| +
        0.4142 * min |(a.1 : ℚ) - (b.1 : ℚ)| |(a.2 : ℚ) - (b.2 : ℚ)| := by
  simp only [octileHeuristic]
  rw [← max_add_min |(a.1 : ℚ) - (b.1 : ℚ)| |(a.2 : ℚ) - (b.2 : ℚ)|]
  ring

/-- C9 counterexample: with a null/empty mesh the search returns the
plain empty list — exactly the normal "no path" value — rather than
surfacing a distinct error. -/
theorem optimizedAStar_empty_mesh_no_error :
    optimizedAStar ([] : Mesh) (0, 0) (1, 1) = Except.ok [] := by
  rfl

/-- C9 amended: for malformed input — an empty mesh, or coordinates
outside the mesh (off-grid start) — the search returns the empty
list, indistinguishable from the normal "no path" result; no error is
raised or returned for such inputs. -/
theorem optimizedAStar_offMesh_empty (mesh : Mesh) (start goal : Cell)
    (h : meshContains mesh start = false) :
    optimizedAStar mesh start goal = Except.ok [] := by
  unfold optimizedAStar
  rw [if_pos]
  exact Or.inr (by simp [h])

/-- C9 witness: out-of-range start `(99, 99)` on a one-cell mesh gives
the empty list, not an error. -/
theorem optimizedAStar_offMesh_empty_witness :
    meshContains [(((5, 5) : Cell), [((5, 6) : Cell)])] (99, 99) = false ∧
    optimizedAStar [(((5, 5) : Cell), [((5, 6) : Cell)])] (99, 99) (5, 5) =
      Except.ok [] :=
  ⟨by decide, optimizedAStar_offMesh_empty _ _ _ (by decide)⟩

/-- C10: `get_next_step` returns `start` itself — standing still, with
no error and no cache write — when `start = goal`, and likewise when
the key is uncached and `start` is absent from the nav mesh (the
inline search then returns the empty path). -/
theorem getNextStep_stands_still (cache : Cache) (mesh : Mesh)
    (start goal : Cell)
    (h : start = goal ∨
      (assocGet (start, goal) cache = none ∧
        meshContains mesh start = false)) :
    getNextStep cache mesh start goal = Except.ok (start, cache) := by
  rcases h with h | ⟨hc, hm⟩
  · simp [getNextStep, h]
  · by_cases hsg : start = goal
    · simp [getNextStep, hsg]
    · unfold getNextStep
      rw [if_neg hsg, hc]
      simp [optimizedAStar, hm]

/-- C10 witness: with an empty cache and empty mesh, both the
`start = goal` case and the off-mesh case return `start` and leave the
cache unchanged. -/
theorem getNextStep_stands_still_witness :
    (assocGet (((0, 0), (1, 1)) : Cell × Cell) ([] : Cache) = none ∧
      meshContains ([] : Mesh) (0, 0) = false) ∧
    getNextStep ([] : Cache) ([] : Mesh) (0, 0) (1, 1) =
      Except.ok ((0, 0), ([] : Cache)) :=
  ⟨⟨by decide, by decide⟩,
    getNextStep_stands_still [] [] (0, 0) (1, 1)
      (Or.inr ⟨by decide, by decide⟩)⟩

end Claims

end GameNav
